import Mathlib

/-!
Verification of the molam-connect webhook-signature and idempotency-key core.

The Python implementations embedded here:
  * brique-105/molam_sdk/utils/webhook.py
      (parse_signature_header, verify_signature, generate_signature)
  * brique-102/packages/python-complete/molam_sdk/webhooks.py
      (verify_molam_signature; its inline parsing loop is factored out as
      parse102 below)
  * brique-102/packages/python-complete/examples/webhook_handler.py
      (verify_signature in that file, named verify_webhook_signature here to
      avoid the clash with the brique-105 function of the same name)
  * brique-105/molam_sdk/utils/idempotency.py (make_idempotency_key)

Modelling conventions:
  * a Python str is a list of Unicode code points (List Nat); a Python bytes
    value is a list of byte values (List Nat, each < 256);
  * HMAC-SHA256 (Python hmac.new with hashlib.sha256) is external library
    code, not code of this repository, so it enters as an explicit parameter
    mac : List Nat -> List Nat -> List Nat (key bytes, message bytes, digest
    bytes); hexdigest() is modelled by hexOfBytes applied to the digest;
  * hmac.compare_digest is modelled as plain equality: it decides exactly
    string equality, only in constant time (it can additionally raise
    TypeError on non-ASCII str arguments, which no claim here touches);
  * Python exceptions raised by the library functions are modelled with
    Except; the example handler catches KeyError/ValueError and returns a
    bare Bool, which is modelled by a Bool-returning function;
  * Python int() parsing is modelled for optionally signed decimal digit
    strings with surrounding whitespace (Python additionally accepts
    underscore digit grouping and non-ASCII decimal digits, which no header
    here contains);
  * time.time() is modelled by passing the current epoch value (now_ms) as
    an explicit argument, and secrets.token_hex(12) by passing the 12 random
    bytes as an explicit argument.
-/

set_option maxRecDepth 4000

/-- Code points of a Lean string literal, used to write Python str values. -/
def S (s : String) : List Nat := s.data.map Char.toNat

/-- Whitespace for Python str.strip() (the ASCII part; the headers handled
here never contain the further Unicode spaces Python also strips). -/
def pySpace (c : Nat) : Bool :=
  c == 32 || c == 9 || c == 10 || c == 13 || c == 11 || c == 12

/-- Python str.strip(): drop whitespace from both ends. -/
def pyStrip (s : List Nat) : List Nat :=
  ((s.dropWhile pySpace).reverse.dropWhile pySpace).reverse

/-- Python s.split(sep) for a one-character separator sep. -/
def splitChar (sep : Nat) : List Nat → List (List Nat)
  | [] => [[]]
  | c :: rest =>
    match splitChar sep rest with
    | [] => [[]]
    | g :: gs => if c = sep then [] :: g :: gs else (c :: g) :: gs

/-- Python pair.split("=", 1): some (key, value) split at the first '='
(code point 61), none when the pair has no '=' (the two-element unpacking
then raises ValueError). -/
def splitEq1 : List Nat → Option (List Nat × List Nat)
  | [] => none
  | c :: rest =>
    if c = 61 then some ([], rest)
    else
      match splitEq1 rest with
      | some kv => some (c :: kv.1, kv.2)
      | none => none

/-- ASCII decimal digit. -/
def isPyDigit (c : Nat) : Bool := decide (48 ≤ c) && decide (c ≤ 57)

/-- Value of a string of decimal digits. -/
def digitsVal (s : List Nat) : Nat := s.foldl (fun a c => a * 10 + (c - 48)) 0

/-- Nonempty all-digit string to its value. -/
def digitsNat (s : List Nat) : Option Nat :=
  if s ≠ [] ∧ s.all isPyDigit then some (digitsVal s) else none

/-- Python int(s) on an already-stripped string: optional sign, then digits. -/
def pyIntCore : List Nat → Option Int
  | [] => none
  | c :: rest =>
    if c = 43 then (digitsNat rest).map Int.ofNat
    else if c = 45 then (digitsNat rest).map (fun n => -(n : Int))
    else (digitsNat (c :: rest)).map Int.ofNat

/-- Python int(s): int() strips surrounding whitespace itself. -/
def pyToInt (s : List Nat) : Option Int := pyIntCore (pyStrip s)

/-- Decimal rendering of a Nat, fuelled so it computes by kernel reduction
(the fuel is always sufficient: a number below 10^k has at most k digits,
and n + 1 such steps always suffice for n). -/
def natToCharsAux : Nat → Nat → List Nat
  | 0, _ => []
  | fuel + 1, n =>
    if n < 10 then [48 + n] else natToCharsAux fuel (n / 10) ++ [48 + n % 10]

/-- Python str(n) for a nonnegative int. -/
def natToChars (n : Nat) : List Nat := natToCharsAux (n + 1) n

/-- Python str(i) for an int: decimal digits, '-' (code 45) prefixed when
negative. -/
def intToChars : Int → List Nat
  | Int.ofNat n => natToChars n
  | Int.negSucc n => 45 :: natToChars (n + 1)

/-- Lowercase hex digit of a value below 16. -/
def hexDigit (n : Nat) : Nat := if n < 10 then 48 + n else 87 + n

/-- Lowercase hex rendering of a byte string (hexdigest, secrets.token_hex).
Bytes are reduced mod 256, where overflow matters. -/
def hexOfBytes (bs : List Nat) : List Nat :=
  (bs.map (fun b => [hexDigit (b % 256 / 16), hexDigit (b % 16)])).flatten

/-- UTF-8 encoding of one code point (RFC 3629 byte layout; the code points
fed to it here are always Unicode scalar values). -/
def encodeChar (c : Nat) : List Nat :=
  if c ≤ 0x7F then [c]
  else if c ≤ 0x7FF then [0xC0 + c / 64, 0x80 + c % 64]
  else if c ≤ 0xFFFF then [0xE0 + c / 4096, 0x80 + c / 64 % 64, 0x80 + c % 64]
  else [0xF0 + c / 262144, 0x80 + c / 4096 % 64, 0x80 + c / 64 % 64, 0x80 + c % 64]

/-- Python s.encode("utf-8"): bytes of a str. -/
def strBytes (s : List Nat) : List Nat := (s.map encodeChar).flatten

/-- UTF-8 continuation byte. -/
def isCont (b : Nat) : Bool := decide (0x80 ≤ b) && decide (b ≤ 0xBF)

/-- One step of strict UTF-8 decoding (Python bytes.decode("utf-8")): the
first byte b0 and the remaining bytes l, with recur continuing on the rest.
Rejects overlong forms, surrogates, and code points above 0x10FFFF, exactly
as Python's strict codec does. -/
def utf8Decode1 (recur : List Nat → Option (List Nat)) (b0 : Nat) (l : List Nat) :
    Option (List Nat) :=
  if b0 ≤ 0x7F then
    match recur l with
    | some r => some (b0 :: r)
    | none => none
  else if b0 < 0xC2 then none
  else if b0 ≤ 0xDF then
    match l with
    | b1 :: l1 =>
      if isCont b1 then
        match recur l1 with
        | some r => some (((b0 - 0xC0) * 64 + (b1 - 0x80)) :: r)
        | none => none
      else none
    | [] => none
  else if b0 ≤ 0xEF then
    match l with
    | b1 :: b2 :: l2 =>
      if (if b0 = 0xE0 then decide (0xA0 ≤ b1) && decide (b1 ≤ 0xBF)
          else if b0 = 0xED then decide (0x80 ≤ b1) && decide (b1 ≤ 0x9F)
          else isCont b1) && isCont b2 then
        match recur l2 with
        | some r => some (((b0 - 0xE0) * 4096 + (b1 - 0x80) * 64 + (b2 - 0x80)) :: r)
        | none => none
      else none
    | _ => none
  else if b0 ≤ 0xF4 then
    match l with
    | b1 :: b2 :: b3 :: l3 =>
      if (if b0 = 0xF0 then decide (0x90 ≤ b1) && decide (b1 ≤ 0xBF)
          else if b0 = 0xF4 then decide (0x80 ≤ b1) && decide (b1 ≤ 0x8F)
          else isCont b1) && isCont b2 && isCont b3 then
        match recur l3 with
        | some r =>
          some (((b0 - 0xF0) * 262144 + (b1 - 0x80) * 4096 + (b2 - 0x80) * 64
                + (b3 - 0x80)) :: r)
        | none => none
      else none
    | _ => none
  else none

/-- The decoding loop, fuelled so it computes by kernel reduction; the fuel
never runs out when it starts at the input's length (each step consumes at
least one byte). -/
def utf8DecodeAux : Nat → List Nat → Option (List Nat)
  | 0 => fun bs =>
    match bs with
    | [] => some []
    | _ :: _ => none
  | fuel + 1 => fun bs =>
    match bs with
    | [] => some []
    | b0 :: l => utf8Decode1 (utf8DecodeAux fuel) b0 l

/-- Python raw.decode("utf-8"): code points, or none for a UnicodeDecodeError. -/
def utf8Decode (bs : List Nat) : Option (List Nat) := utf8DecodeAux bs.length bs

/-- Python dict assignment parts[k] = v, modelled by its lookup behaviour:
the most recent binding of a key wins. The code never iterates over the
dict (the one keys() use is a membership test), so insertion-order
iteration need not be modelled. -/
def dinsert (d : List (List Nat × List Nat)) (k v : List Nat) :
    List (List Nat × List Nat) :=
  (k, v) :: d

/-- Python parts.get(k): the most recent binding of k. -/
def dget (d : List (List Nat × List Nat)) (k : List Nat) : Option (List Nat) :=
  match d with
  | [] => none
  | kv :: rest => if kv.1 = k then some kv.2 else dget rest k

/-- The distinct failure exits of the verifiers, one constructor per raise
site. unicodeDecodeError stands for the uncaught Python UnicodeDecodeError
that brique-105's raw_body.decode("utf-8") raises on a non-UTF-8 body (it
is not a SignatureError in the source). -/
inductive VErr
  | missingHeader
  | invalidHeaderFormat
  | missingRequiredFields
  | missingTimestampOrSignature
  | invalidTimestampFormat
  | timestampOutOfTolerance
  | secretNotFound
  | signatureMismatch
  | unicodeDecodeError
  deriving DecidableEq

deriving instance DecidableEq for Except

/-- Key or value as stored: brique-105's parser strips both, brique-102's
inline loop stores them verbatim. -/
def stripK (strip : Bool) (x : List Nat) : List Nat := if strip then pyStrip x else x

/-- The common parsing loop: split each segment at its first '=' and assign
into the dict; a segment without '=' raises (ValueError from the unpacking,
turned into the invalid-format error by both implementations). -/
def parsePairs (strip : Bool) :
    List (List Nat) → List (List Nat × List Nat) →
    Except VErr (List (List Nat × List Nat))
  | [], acc => .ok acc
  | seg :: rest, acc =>
    match splitEq1 seg with
    | some kv => parsePairs strip rest (dinsert acc (stripK strip kv.1) (stripK strip kv.2))
    | none => .error .invalidHeaderFormat

/-- brique-105 parse_signature_header: empty-header guard, split on commas,
keys and values stripped. -/
def parse_signature_header (header : List Nat) :
    Except VErr (List (List Nat × List Nat)) :=
  if header = [] then .error .missingHeader
  else parsePairs true (splitChar 44 header) []

/-- The inline parsing loop of brique-102 verify_molam_signature: same split,
no stripping, any failure collapsed to the invalid-format error. -/
def parse102 (header : List Nat) : Except VErr (List (List Nat × List Nat)) :=
  parsePairs false (splitChar 44 header) []

/-- brique-102 line 84: signed_payload = f"{timestamp_str}.".encode("utf-8")
+ payload  — the t value as received, a period, then the raw body bytes. -/
def signed_payload_102 (timestamp_str : List Nat) (payload : List Nat) : List Nat :=
  strBytes (timestamp_str ++ [46]) ++ payload

/-- brique-105 line 116: signed_payload =
f"{parts['t']}.{raw_body.decode('utf-8')}" then .encode("utf-8") — the body
is decoded as UTF-8 (UnicodeDecodeError on failure) and re-encoded inside
the f-string. -/
def signed_payload_105 (timestamp_str : List Nat) (raw_body : List Nat) :
    Option (List Nat) :=
  match utf8Decode raw_body with
  | some s => some (strBytes (timestamp_str ++ 46 :: s))
  | none => none

/-- webhook_handler line 68: signed_payload = f"{timestamp}.".encode() +
payload — the timestamp here is the int, so the header's t value is
re-formatted. -/
def signed_payload_ex (timestamp : Int) (payload : List Nat) : List Nat :=
  strBytes (intToChars timestamp ++ [46]) ++ payload

def keyT : List Nat := S "t"
def keyV1 : List Nat := S "v1"
def keyKid : List Nat := S "kid"

/-- brique-105 verify_signature. mac is the external HMAC-SHA256; now_ms the
value of int(time.time() * 1000). Returns .ok true (the only return) or the
raised error. A secret that resolves to the empty string fails the Python
`if not secret` truthiness test just like None, so both map to
secretNotFound. -/
def verify_signature (mac : List Nat → List Nat → List Nat) (now_ms : Int)
    (header : List Nat) (raw_body : List Nat)
    (get_secret_by_kid : List Nat → Option (List Nat)) (tolerance_ms : Int) :
    Except VErr Bool :=
  if header = [] then .error .missingHeader
  else
    match parse_signature_header header with
    | .error e => .error e
    | .ok parts =>
      match dget parts keyT, dget parts keyV1, dget parts keyKid with
      | some timestamp_str, some signature, some kid =>
        match pyToInt timestamp_str with
        | none => .error .invalidTimestampFormat
        | some timestamp_ms =>
          if tolerance_ms < |now_ms - timestamp_ms| then
            .error .timestampOutOfTolerance
          else
            match get_secret_by_kid kid with
            | none => .error .secretNotFound
            | some secret =>
              if secret = [] then .error .secretNotFound
              else
                match signed_payload_105 timestamp_str raw_body with
                | none => .error .unicodeDecodeError
                | some signed =>
                  if hexOfBytes (mac (strBytes secret) signed) = signature then
                    .ok true
                  else .error .signatureMismatch
      | _, _, _ => .error .missingRequiredFields

/-- brique-102 verify_molam_signature. kid defaults to "v1" when absent;
Python's truthiness makes an empty t or v1 value count as missing. -/
def verify_molam_signature (mac : List Nat → List Nat → List Nat) (now_ms : Int)
    (header : List Nat) (payload : List Nat)
    (get_secret_by_kid : List Nat → Option (List Nat)) (tolerance_seconds : Int) :
    Except VErr Bool :=
  if header = [] then .error .missingHeader
  else
    match parse102 header with
    | .error e => .error e
    | .ok parts =>
      let timestamp_str := (dget parts keyT).getD []
      let signature := (dget parts keyV1).getD []
      let kid := (dget parts keyKid).getD (S "v1")
      if timestamp_str = [] ∨ signature = [] then .error .missingTimestampOrSignature
      else
        match pyToInt timestamp_str with
        | none => .error .invalidTimestampFormat
        | some timestamp =>
          if tolerance_seconds * 1000 < |now_ms - timestamp| then
            .error .timestampOutOfTolerance
          else
            match get_secret_by_kid kid with
            | none => .error .secretNotFound
            | some secret =>
              if secret = [] then .error .secretNotFound
              else if hexOfBytes (mac (strBytes secret)
                        (signed_payload_102 timestamp_str payload)) = signature then
                .ok true
              else .error .signatureMismatch

/-- The example handler's verify_signature (webhook_handler.py): returns a
bare Bool, with KeyError/ValueError caught and turned into False. Out-of-
tolerance timestamps and mismatching signatures also just return False. -/
def verify_webhook_signature (mac : List Nat → List Nat → List Nat) (now_ms : Int)
    (payload : List Nat) (signature_header : List Nat) (secret : List Nat)
    (tolerance_seconds : Int) : Bool :=
  match (splitChar 44 signature_header).foldlM
      (fun d pair => (splitEq1 pair).map (fun kv => dinsert d kv.1 kv.2))
      ([] : List (List Nat × List Nat)) with
  | none => false
  | some parts =>
    match dget parts keyT with
    | none => false
    | some tStr =>
      match pyToInt tStr with
      | none => false
      | some timestamp =>
        match dget parts keyV1 with
        | none => false
        | some signature =>
          if tolerance_seconds * 1000 < |now_ms - timestamp| then false
          else
            decide (hexOfBytes (mac (strBytes secret)
              (signed_payload_ex timestamp payload)) = signature)

/-- brique-105 generate_signature: decodes the payload (UnicodeDecodeError,
i.e. none, on a non-UTF-8 payload), signs str(timestamp_ms) + "." + payload
text, and renders the header f"t={timestamp_ms},v1={signature},kid={kid}". -/
def generate_signature (mac : List Nat → List Nat → List Nat)
    (payload : List Nat) (secret : List Nat) (timestamp_ms : Int)
    (kid : List Nat) : Option (List Nat) :=
  match utf8Decode payload with
  | none => none
  | some s =>
    let signature := hexOfBytes (mac (strBytes secret)
      (strBytes (intToChars timestamp_ms ++ 46 :: s)))
    S "t=" ++ intToChars timestamp_ms ++ 44 :: (S "v1=" ++ signature)
      ++ 44 :: (S "kid=" ++ kid)

/-- The KeyTooLong usage error of make_idempotency_key (a ValueError in the
source). -/
inductive IdemErr
  | keyTooLong
  deriving DecidableEq

/-- The generated key f"molam-{ts}-{rand}" with ts = int(time.time() * 1000)
and rand = secrets.token_hex(12), the 12 random bytes passed explicitly. -/
def genKey (ts : Nat) (randBytes : List Nat) : List Nat :=
  S "molam-" ++ natToChars ts ++ 45 :: hexOfBytes randBytes

/-- brique-105 make_idempotency_key: Python's `if provided:` treats the
empty string like None, so both fall through to generation; a truthy
provided key is length-checked and returned unchanged. -/
def make_idempotency_key (provided : Option (List Nat)) (ts : Nat)
    (randBytes : List Nat) : Except IdemErr (List Nat) :=
  match provided with
  | some s =>
    if s ≠ [] then
      if 128 < s.length then .error .keyTooLong else .ok s
    else .ok (genKey ts randBytes)
  | none => .ok (genKey ts randBytes)

/-- A kid survives the header round trip when it contains no comma and no
equals sign and is unchanged by stripping. -/
def kidOK (kid : List Nat) : Bool :=
  !(kid.contains 44) && !(kid.contains 61) && (pyStrip kid == kid)

/-! ## Helper lemmas: stripping, splitting, dict lookup -/

theorem dropWhile_eq_self_of_all {p : Nat → Bool} {s : List Nat}
    (h : ∀ c ∈ s, p c = false) : s.dropWhile p = s := by
  cases s with
  | nil => rfl
  | cons a l => simp [List.dropWhile_cons, h a (by simp)]

theorem pyStrip_eq_self {s : List Nat} (h : ∀ c ∈ s, pySpace c = false) :
    pyStrip s = s := by
  unfold pyStrip
  rw [dropWhile_eq_self_of_all h, dropWhile_eq_self_of_all (p := pySpace)
    (s := s.reverse) (fun c hc => h c (List.mem_reverse.mp hc)), List.reverse_reverse]

theorem splitChar_ne_nil (sep : Nat) (s : List Nat) : splitChar sep s ≠ [] := by
  induction s with
  | nil => simp [splitChar]
  | cons c rest ih =>
    unfold splitChar
    cases hr : splitChar sep rest with
    | nil => simp
    | cons g gs => by_cases hc : c = sep <;> simp [hc]

theorem splitChar_nosep {sep : Nat} {s : List Nat} (h : sep ∉ s) :
    splitChar sep s = [s] := by
  induction s with
  | nil => rfl
  | cons c rest ih =>
    have hc : c ≠ sep := fun e => h (e ▸ List.mem_cons_self c rest)
    have hrest : sep ∉ rest := fun hm => h (List.mem_cons_of_mem c hm)
    unfold splitChar
    rw [ih hrest]
    simp [hc]

theorem splitChar_append {sep : Nat} {a : List Nat} (b : List Nat) (h : sep ∉ a) :
    splitChar sep (a ++ sep :: b) = a :: splitChar sep b := by
  induction a with
  | nil =>
    simp only [List.nil_append]
    conv_lhs => unfold splitChar
    cases hb : splitChar sep b with
    | nil => exact absurd hb (splitChar_ne_nil sep b)
    | cons g gs => simp
  | cons c rest ih =>
    have hc : c ≠ sep := fun e => h (e ▸ List.mem_cons_self c rest)
    have hrest : sep ∉ rest := fun hm => h (List.mem_cons_of_mem c hm)
    simp only [List.cons_append]
    conv_lhs => unfold splitChar
    rw [ih hrest]
    simp [hc]

theorem splitEq1_nomem {s : List Nat} (h : (61 : Nat) ∉ s) : splitEq1 s = none := by
  induction s with
  | nil => rfl
  | cons c rest ih =>
    have hc : c ≠ 61 := fun e => h (e ▸ List.mem_cons_self c rest)
    have hrest : (61 : Nat) ∉ rest := fun hm => h (List.mem_cons_of_mem c hm)
    unfold splitEq1
    rw [ih hrest]
    simp [hc]

theorem splitEq1_append {k : List Nat} (v : List Nat) (h : (61 : Nat) ∉ k) :
    splitEq1 (k ++ 61 :: v) = some (k, v) := by
  induction k with
  | nil => simp [splitEq1]
  | cons c rest ih =>
    have hc : c ≠ 61 := fun e => h (e ▸ List.mem_cons_self c rest)
    have hrest : (61 : Nat) ∉ rest := fun hm => h (List.mem_cons_of_mem c hm)
    simp only [List.cons_append]
    unfold splitEq1
    rw [ih hrest]
    simp [hc]

theorem splitEq1_of_mem {s : List Nat} (h : (61 : Nat) ∈ s) :
    ∃ kv, splitEq1 s = some kv := by
  induction s with
  | nil => cases h
  | cons c rest ih =>
    unfold splitEq1
    by_cases hc : c = 61
    · exact ⟨([], rest), by simp [hc]⟩
    · have hrest : (61 : Nat) ∈ rest := by
        cases List.mem_cons.mp h with
        | inl e => exact absurd e.symm hc
        | inr m => exact m
      obtain ⟨kv, hkv⟩ := ih hrest
      exact ⟨(c :: kv.1, kv.2), by simp [hc, hkv]⟩

theorem dget_dinsert_self (d : List (List Nat × List Nat)) (k v : List Nat) :
    dget (dinsert d k v) k = some v := by simp [dinsert, dget]

theorem dget_dinsert_ne (d : List (List Nat × List Nat)) {k k' : List Nat}
    (v : List Nat) (h : k' ≠ k) : dget (dinsert d k' v) k = dget d k := by
  simp [dinsert, dget, h]

/-! ## Helper lemmas: decimal rendering and int() parsing -/

theorem natToCharsAux_irrel :
    ∀ (f1 f2 n : Nat), n < f1 → n < f2 → natToCharsAux f1 n = natToCharsAux f2 n := by
  intro f1
  induction f1 with
  | zero => omega
  | succ f ih =>
    intro f2 n h1 h2
    cases f2 with
    | zero => omega
    | succ f' =>
      unfold natToCharsAux
      by_cases hn : n < 10
      · simp [hn]
      · have hd : n / 10 < n := Nat.div_lt_self (by omega) (by omega)
        simp only [hn, if_false]
        rw [ih f' (n / 10) (by omega) (by omega)]

theorem natToChars_unfold (n : Nat) :
    natToChars n = if n < 10 then [48 + n] else natToChars (n / 10) ++ [48 + n % 10] := by
  unfold natToChars
  conv_lhs => unfold natToCharsAux
  by_cases hn : n < 10
  · simp [hn]
  · have hd : n / 10 < n := Nat.div_lt_self (by omega) (by omega)
    simp only [hn, if_false]
    rw [natToCharsAux_irrel n (n / 10 + 1) (n / 10) (by omega) (by omega)]

theorem natToChars_digits (n : Nat) : ∀ c ∈ natToChars n, isPyDigit c = true := by
  induction n using Nat.strong_induction_on with
  | _ n ih =>
    rw [natToChars_unfold]
    by_cases hn : n < 10
    · simp only [hn, if_true]
      intro c hc
      simp only [List.mem_singleton] at hc
      subst hc
      simp only [isPyDigit, Bool.and_eq_true, decide_eq_true_eq]
      omega
    · have hd : n / 10 < n := Nat.div_lt_self (by omega) (by omega)
      simp only [hn, if_false]
      intro c hc
      rcases List.mem_append.mp hc with hm | hm
      · exact ih (n / 10) hd c hm
      · simp only [List.mem_singleton] at hm
        subst hm
        have : n % 10 < 10 := Nat.mod_lt n (by omega)
        simp only [isPyDigit, Bool.and_eq_true, decide_eq_true_eq]
        omega

theorem natToChars_ne_nil (n : Nat) : natToChars n ≠ [] := by
  rw [natToChars_unfold]
  by_cases hn : n < 10 <;> simp [hn]

theorem digitsVal_append (a : List Nat) (d : Nat) :
    digitsVal (a ++ [d]) = digitsVal a * 10 + (d - 48) := by
  simp [digitsVal, List.foldl_append]

theorem digitsVal_natToChars (n : Nat) : digitsVal (natToChars n) = n := by
  induction n using Nat.strong_induction_on with
  | _ n ih =>
    rw [natToChars_unfold]
    by_cases hn : n < 10
    · simp only [hn, if_true, digitsVal, List.foldl_cons, List.foldl_nil]
      omega
    · have hd : n / 10 < n := Nat.div_lt_self (by omega) (by omega)
      simp only [hn, if_false]
      rw [digitsVal_append, ih (n / 10) hd]
      omega

theorem digitsNat_natToChars (n : Nat) : digitsNat (natToChars n) = some n := by
  have hne := natToChars_ne_nil n
  have hall : (natToChars n).all isPyDigit = true :=
    List.all_eq_true.mpr (natToChars_digits n)
  simp [digitsNat, hne, hall, digitsVal_natToChars]

theorem natToChars_head_digit (n : Nat) :
    ∃ c rest, natToChars n = c :: rest ∧ isPyDigit c = true := by
  cases h : natToChars n with
  | nil => exact absurd h (natToChars_ne_nil n)
  | cons c rest =>
    exact ⟨c, rest, rfl, natToChars_digits n c (h ▸ List.mem_cons_self c rest)⟩

theorem intToChars_no_space : ∀ (i : Int), ∀ c ∈ intToChars i, pySpace c = false := by
  intro i c hc
  have digit_no_space : ∀ d, isPyDigit d = true → pySpace d = false := by
    intro d hd
    simp [isPyDigit] at hd
    simp [pySpace]
    omega
  cases i with
  | ofNat n => exact digit_no_space c (natToChars_digits n c hc)
  | negSucc n =>
    simp only [intToChars] at hc
    rcases List.mem_cons.mp hc with e | hm
    · subst e; simp [pySpace]
    · exact digit_no_space c (natToChars_digits (n + 1) c hm)

theorem pyStrip_intToChars (i : Int) : pyStrip (intToChars i) = intToChars i :=
  pyStrip_eq_self (intToChars_no_space i)

theorem pyIntCore_natToChars (n : Nat) : pyIntCore (natToChars n) = some (Int.ofNat n) := by
  obtain ⟨c, rest, he, hd⟩ := natToChars_head_digit n
  have hc43 : c ≠ 43 := by simp [isPyDigit] at hd; omega
  have hc45 : c ≠ 45 := by simp [isPyDigit] at hd; omega
  rw [he]
  unfold pyIntCore
  simp only [hc43, if_false, hc45]
  rw [← he, digitsNat_natToChars]
  rfl

theorem pyToInt_intToChars (i : Int) : pyToInt (intToChars i) = some i := by
  unfold pyToInt
  rw [pyStrip_intToChars]
  cases i with
  | ofNat n => exact pyIntCore_natToChars n
  | negSucc n =>
    show pyIntCore (45 :: natToChars (n + 1)) = some (Int.negSucc n)
    unfold pyIntCore
    norm_num
    rw [digitsNat_natToChars]
    simp [Int.negSucc_eq]

theorem intToChars_mem (i : Int) :
    ∀ c ∈ intToChars i, isPyDigit c = true ∨ c = 45 := by
  intro c hc
  cases i with
  | ofNat n => exact Or.inl (natToChars_digits n c hc)
  | negSucc n =>
    simp only [intToChars] at hc
    rcases List.mem_cons.mp hc with e | hm
    · exact Or.inr e
    · exact Or.inl (natToChars_digits (n + 1) c hm)

theorem intToChars_no_comma (i : Int) : (44 : Nat) ∉ intToChars i := by
  intro hm
  rcases intToChars_mem i 44 hm with hd | he
  · simp [isPyDigit] at hd
  · omega

theorem intToChars_no_eq (i : Int) : (61 : Nat) ∉ intToChars i := by
  intro hm
  rcases intToChars_mem i 61 hm with hd | he
  · simp only [isPyDigit, Bool.and_eq_true, decide_eq_true_eq] at hd
    omega
  · omega

/-! ## Helper lemmas: hex rendering -/

theorem hexDigit_range (n : Nat) (h : n < 16) :
    (48 ≤ hexDigit n ∧ hexDigit n ≤ 57) ∨ (97 ≤ hexDigit n ∧ hexDigit n ≤ 102) := by
  unfold hexDigit
  by_cases hn : n < 10
  · simp only [hn, if_true]
    omega
  · simp only [hn, if_false]
    omega

theorem hexOfBytes_mem (bs : List Nat) :
    ∀ c ∈ hexOfBytes bs, (48 ≤ c ∧ c ≤ 57) ∨ (97 ≤ c ∧ c ≤ 102) := by
  intro c hc
  unfold hexOfBytes at hc
  rw [List.mem_flatten] at hc
  obtain ⟨l, hl, hcl⟩ := hc
  rw [List.mem_map] at hl
  obtain ⟨b, _, hb⟩ := hl
  subst hb
  have h1 : b % 256 / 16 < 16 := by omega
  have h2 : b % 16 < 16 := by omega
  simp only [List.mem_cons, List.not_mem_nil, or_false] at hcl
  rcases hcl with e | e
  · exact e ▸ hexDigit_range _ h1
  · exact e ▸ hexDigit_range _ h2

theorem hexOfBytes_no_comma (bs : List Nat) : (44 : Nat) ∉ hexOfBytes bs := by
  intro hm
  rcases hexOfBytes_mem bs 44 hm with h | h <;> omega

theorem hexOfBytes_no_space (bs : List Nat) : ∀ c ∈ hexOfBytes bs, pySpace c = false := by
  intro c hc
  rcases hexOfBytes_mem bs c hc with h | h <;>
    · simp only [pySpace, Bool.or_eq_false_iff, beq_eq_false_iff_ne, ne_eq]
      omega

theorem pyStrip_hexOfBytes (bs : List Nat) : pyStrip (hexOfBytes bs) = hexOfBytes bs :=
  pyStrip_eq_self (hexOfBytes_no_space bs)

theorem hexOfBytes_length (bs : List Nat) : (hexOfBytes bs).length = 2 * bs.length := by
  induction bs with
  | nil => rfl
  | cons b rest ih =>
    simp only [hexOfBytes, List.map_cons, List.flatten_cons] at *
    simp [ih]
    omega

/-! ## Helper lemmas: UTF-8 encoding and decoding -/

theorem strBytes_cons (c : Nat) (s : List Nat) :
    strBytes (c :: s) = encodeChar c ++ strBytes s := by
  simp [strBytes]

theorem strBytes_append (a b : List Nat) :
    strBytes (a ++ b) = strBytes a ++ strBytes b := by
  simp [strBytes]

theorem utf8DecodeAux_nil (fuel : Nat) : utf8DecodeAux fuel [] = some [] := by
  cases fuel <;> rfl

theorem utf8DecodeAux_succ_cons (fuel b0 : Nat) (l : List Nat) :
    utf8DecodeAux (fuel + 1) (b0 :: l) = utf8Decode1 (utf8DecodeAux fuel) b0 l := rfl

theorem utf8DecodeAux_encode :
    ∀ (fuel : Nat) (bs ps : List Nat), utf8DecodeAux fuel bs = some ps → strBytes ps = bs := by
  intro fuel
  induction fuel with
  | zero =>
    intro bs ps h
    cases bs with
    | nil =>
      rw [utf8DecodeAux_nil] at h
      simp only [Option.some.injEq] at h
      subst h
      rfl
    | cons b l => cases h
  | succ fuel ih =>
    intro bs ps h
    cases bs with
    | nil =>
      rw [utf8DecodeAux_nil] at h
      simp only [Option.some.injEq] at h
      subst h
      rfl
    | cons b0 l =>
      rw [utf8DecodeAux_succ_cons] at h
      unfold utf8Decode1 at h
      by_cases h7 : b0 ≤ 0x7F
      · simp only [h7, if_true] at h
        cases hrec : utf8DecodeAux fuel l with
        | none => rw [hrec] at h; cases h
        | some r =>
          rw [hrec] at h
          simp only [Option.some.injEq] at h
          subst h
          rw [strBytes_cons, ih l r hrec]
          have : encodeChar b0 = [b0] := by simp [encodeChar, h7]
          rw [this]
          rfl
      · simp only [h7, if_false] at h
        by_cases hlo : b0 < 0xC2
        · simp only [hlo, if_true] at h
          cases h
        · simp only [hlo, if_false] at h
          by_cases h2 : b0 ≤ 0xDF
          · -- two-byte sequence
            simp only [h2, if_true] at h
            cases l with
            | nil => cases h
            | cons b1 l1 =>
              by_cases hc1 : isCont b1 = true
              · simp only [hc1, if_true] at h
                cases hrec : utf8DecodeAux fuel l1 with
                | none => rw [hrec] at h; cases h
                | some r =>
                  rw [hrec] at h
                  simp only [Option.some.injEq] at h
                  subst h
                  rw [strBytes_cons, ih l1 r hrec]
                  simp only [isCont, Bool.and_eq_true, decide_eq_true_eq] at hc1
                  have he : encodeChar ((b0 - 0xC0) * 64 + (b1 - 0x80)) = [b0, b1] := by
                    unfold encodeChar
                    rw [if_neg (by omega), if_pos (by omega)]
                    simp only [List.cons.injEq, and_true]
                    omega
                  rw [he]
                  rfl
              · simp only [hc1, if_false] at h
                cases h
          · simp only [h2, if_false] at h
            by_cases h3 : b0 ≤ 0xEF
            · -- three-byte sequence
              simp only [h3, if_true] at h
              cases l with
              | nil => cases h
              | cons b1 rest1 =>
              cases rest1 with
              | nil => cases h
              | cons b2 l2 =>
                by_cases hcond : ((if b0 = 0xE0 then decide (0xA0 ≤ b1) && decide (b1 ≤ 0xBF)
                    else if b0 = 0xED then decide (0x80 ≤ b1) && decide (b1 ≤ 0x9F)
                    else isCont b1) && isCont b2) = true
                · simp only [hcond, if_true] at h
                  cases hrec : utf8DecodeAux fuel l2 with
                  | none => rw [hrec] at h; cases h
                  | some r =>
                    rw [hrec] at h
                    simp only [Option.some.injEq] at h
                    subst h
                    rw [strBytes_cons, ih l2 r hrec]
                    rw [Bool.and_eq_true] at hcond
                    obtain ⟨hb1, hb2⟩ := hcond
                    simp only [isCont, Bool.and_eq_true, decide_eq_true_eq] at hb2
                    have hb1' : (b0 = 0xE0 ∧ 0xA0 ≤ b1 ∧ b1 ≤ 0xBF) ∨
                        (b0 = 0xED ∧ 0x80 ≤ b1 ∧ b1 ≤ 0x9F) ∨
                        (b0 ≠ 0xE0 ∧ b0 ≠ 0xED ∧ 0x80 ≤ b1 ∧ b1 ≤ 0xBF) := by
                      by_cases he0 : b0 = 0xE0
                      · rw [if_pos he0] at hb1
                        simp only [Bool.and_eq_true, decide_eq_true_eq] at hb1
                        exact Or.inl ⟨he0, hb1⟩
                      · by_cases hed : b0 = 0xED
                        · rw [if_neg he0, if_pos hed] at hb1
                          simp only [Bool.and_eq_true, decide_eq_true_eq] at hb1
                          exact Or.inr (Or.inl ⟨hed, hb1⟩)
                        · rw [if_neg he0, if_neg hed] at hb1
                          simp only [isCont, Bool.and_eq_true, decide_eq_true_eq] at hb1
                          exact Or.inr (Or.inr ⟨he0, hed, hb1⟩)
                    have he : encodeChar ((b0 - 0xE0) * 4096 + (b1 - 0x80) * 64 + (b2 - 0x80))
                        = [b0, b1, b2] := by
                      unfold encodeChar
                      rw [if_neg (by omega), if_neg (by omega), if_pos (by omega)]
                      simp only [List.cons.injEq, and_true]
                      omega
                    rw [he]
                    rfl
                · simp only [hcond, if_false] at h
                  cases h
            · simp only [h3, if_false] at h
              by_cases h4 : b0 ≤ 0xF4
              · -- four-byte sequence
                simp only [h4, if_true] at h
                cases l with
                | nil => cases h
                | cons b1 rest1 =>
                cases rest1 with
                | nil => cases h
                | cons b2 rest2 =>
                cases rest2 with
                | nil => cases h
                | cons b3 l3 =>
                  by_cases hcond : ((if b0 = 0xF0 then decide (0x90 ≤ b1) && decide (b1 ≤ 0xBF)
                      else if b0 = 0xF4 then decide (0x80 ≤ b1) && decide (b1 ≤ 0x8F)
                      else isCont b1) && isCont b2 && isCont b3) = true
                  · simp only [hcond, if_true] at h
                    cases hrec : utf8DecodeAux fuel l3 with
                    | none => rw [hrec] at h; cases h
                    | some r =>
                      rw [hrec] at h
                      simp only [Option.some.injEq] at h
                      subst h
                      rw [strBytes_cons, ih l3 r hrec]
                      rw [Bool.and_eq_true, Bool.and_eq_true] at hcond
                      obtain ⟨⟨hb1, hb2⟩, hb3⟩ := hcond
                      simp only [isCont, Bool.and_eq_true, decide_eq_true_eq] at hb2 hb3
                      have hb1' : (b0 = 0xF0 ∧ 0x90 ≤ b1 ∧ b1 ≤ 0xBF) ∨
                          (b0 = 0xF4 ∧ 0x80 ≤ b1 ∧ b1 ≤ 0x8F) ∨
                          (b0 ≠ 0xF0 ∧ b0 ≠ 0xF4 ∧ 0x80 ≤ b1 ∧ b1 ≤ 0xBF) := by
                        by_cases hf0 : b0 = 0xF0
                        · rw [if_pos hf0] at hb1
                          simp only [Bool.and_eq_true, decide_eq_true_eq] at hb1
                          exact Or.inl ⟨hf0, hb1⟩
                        · by_cases hf4 : b0 = 0xF4
                          · rw [if_neg hf0, if_pos hf4] at hb1
                            simp only [Bool.and_eq_true, decide_eq_true_eq] at hb1
                            exact Or.inr (Or.inl ⟨hf4, hb1⟩)
                          · rw [if_neg hf0, if_neg hf4] at hb1
                            simp only [isCont, Bool.and_eq_true, decide_eq_true_eq] at hb1
                            exact Or.inr (Or.inr ⟨hf0, hf4, hb1⟩)
                      have he : encodeChar ((b0 - 0xF0) * 262144 + (b1 - 0x80) * 4096
                          + (b2 - 0x80) * 64 + (b3 - 0x80)) = [b0, b1, b2, b3] := by
                        unfold encodeChar
                        rw [if_neg (by omega), if_neg (by omega), if_neg (by omega)]
                        simp only [List.cons.injEq, and_true]
                        omega
                      rw [he]
                      rfl
                  · simp only [hcond, if_false] at h
                    cases h
              · simp only [h4, if_false] at h
                cases h

theorem utf8Decode_encode {bs ps : List Nat} (h : utf8Decode bs = some ps) :
    strBytes ps = bs :=
  utf8DecodeAux_encode bs.length bs ps h

/-! ## Helper lemmas: the parsing fold -/

theorem parsePairs_nil (strip : Bool) (acc : List (List Nat × List Nat)) :
    parsePairs strip [] acc = .ok acc := rfl

theorem parsePairs_cons (strip : Bool) (seg : List Nat) (rest : List (List Nat))
    (acc : List (List Nat × List Nat)) :
    parsePairs strip (seg :: rest) acc =
      match splitEq1 seg with
      | some kv => parsePairs strip rest (dinsert acc (stripK strip kv.1) (stripK strip kv.2))
      | none => .error .invalidHeaderFormat := rfl

theorem parsePairs_append (strip : Bool) (xs ys : List (List Nat))
    (acc : List (List Nat × List Nat)) :
    parsePairs strip (xs ++ ys) acc =
      match parsePairs strip xs acc with
      | .ok d => parsePairs strip ys d
      | .error e => .error e := by
  induction xs generalizing acc with
  | nil => rfl
  | cons seg rest ih =>
    rw [List.cons_append, parsePairs_cons, parsePairs_cons]
    cases hs : splitEq1 seg with
    | none => rfl
    | some kv =>
      dsimp only
      rw [ih]

theorem parsePairs_ok (strip : Bool) (segs : List (List Nat)) :
    ∀ acc, (∀ seg ∈ segs, (61 : Nat) ∈ seg) →
      ∃ d, parsePairs strip segs acc = .ok d := by
  induction segs with
  | nil => exact fun acc _ => ⟨acc, rfl⟩
  | cons seg rest ih =>
    intro acc hall
    obtain ⟨kv, hkv⟩ := splitEq1_of_mem (hall seg (by simp))
    unfold parsePairs
    rw [hkv]
    exact ih _ (fun s hs => hall s (by simp [hs]))

theorem parsePairs_dget_skip (strip : Bool) (key : List Nat) :
    ∀ (segs : List (List Nat)) (acc d : List (List Nat × List Nat)),
      parsePairs strip segs acc = .ok d →
      (∀ seg ∈ segs, ∀ kv, splitEq1 seg = some kv → stripK strip kv.1 ≠ key) →
      dget d key = dget acc key := by
  intro segs
  induction segs with
  | nil =>
    intro acc d h _
    simp only [parsePairs, Except.ok.injEq] at h
    rw [h]
  | cons seg rest ih =>
    intro acc d h hnone
    unfold parsePairs at h
    cases hs : splitEq1 seg with
    | none => rw [hs] at h; cases h
    | some kv =>
      rw [hs] at h
      rw [ih _ _ h (fun s hs' kv' hkv' => hnone s (List.mem_cons_of_mem seg hs') kv' hkv')]
      exact dget_dinsert_ne _ _ (hnone seg (by simp) kv hs)

theorem parsePairs_dget_last (strip : Bool) (xs : List (List Nat)) (seg : List Nat)
    (ys : List (List Nat)) (acc d : List (List Nat × List Nat))
    (key : List Nat) (kv : List Nat × List Nat)
    (h : parsePairs strip (xs ++ seg :: ys) acc = .ok d)
    (hseg : splitEq1 seg = some kv) (hkey : stripK strip kv.1 = key)
    (hys : ∀ s ∈ ys, ∀ kv', splitEq1 s = some kv' → stripK strip kv'.1 ≠ key) :
    dget d key = some (stripK strip kv.2) := by
  rw [parsePairs_append] at h
  cases hxs : parsePairs strip xs acc with
  | error e => rw [hxs] at h; cases h
  | ok d1 =>
    rw [hxs] at h
    unfold parsePairs at h
    rw [hseg] at h
    rw [parsePairs_dget_skip strip key ys _ d h hys, hkey, dget_dinsert_self]

/-! ## Helper lemmas: the generated header round trip -/

theorem kidOK_no_comma {kid : List Nat} (h : kidOK kid = true) : (44 : Nat) ∉ kid := by
  simp only [kidOK, Bool.and_eq_true, Bool.not_eq_true'] at h
  intro hm
  have h' := h.1.1
  simp [List.elem_iff] at h'
  exact h' hm

theorem kidOK_no_eq {kid : List Nat} (h : kidOK kid = true) : (61 : Nat) ∉ kid := by
  simp only [kidOK, Bool.and_eq_true, Bool.not_eq_true'] at h
  intro hm
  have h' := h.1.2
  simp [List.elem_iff] at h'
  exact h' hm

theorem kidOK_strip {kid : List Nat} (h : kidOK kid = true) : pyStrip kid = kid := by
  simp only [kidOK, Bool.and_eq_true, beq_iff_eq] at h
  exact h.2

theorem splitChar_gen3 {a b c : List Nat} (ha : (44 : Nat) ∉ a) (hb : (44 : Nat) ∉ b)
    (hc : (44 : Nat) ∉ c) :
    splitChar 44 (a ++ 44 :: (b ++ 44 :: c)) = [a, b, c] := by
  rw [splitChar_append _ ha, splitChar_append _ hb, splitChar_nosep hc]

theorem parsePairs_three (strip : Bool) (k1 v1 k2 v2 k3 v3 : List Nat)
    (h1 : (61 : Nat) ∉ k1) (h2 : (61 : Nat) ∉ k2) (h3 : (61 : Nat) ∉ k3) :
    parsePairs strip [k1 ++ 61 :: v1, k2 ++ 61 :: v2, k3 ++ 61 :: v3] [] =
      .ok [(stripK strip k3, stripK strip v3), (stripK strip k2, stripK strip v2),
           (stripK strip k1, stripK strip v1)] := by
  unfold parsePairs
  rw [splitEq1_append _ h1]
  unfold parsePairs
  rw [splitEq1_append _ h2]
  unfold parsePairs
  rw [splitEq1_append _ h3]
  rfl

theorem parsePairs_two (strip : Bool) (k1 v1 k2 v2 : List Nat)
    (h1 : (61 : Nat) ∉ k1) (h2 : (61 : Nat) ∉ k2) :
    parsePairs strip [k1 ++ 61 :: v1, k2 ++ 61 :: v2] [] =
      .ok [(stripK strip k2, stripK strip v2), (stripK strip k1, stripK strip v1)] := by
  unfold parsePairs
  rw [splitEq1_append _ h1]
  unfold parsePairs
  rw [splitEq1_append _ h2]
  rfl

theorem dget_three (x y z kT kV kK q : List Nat)
    (hT : (kK = q) = False ∧ (kV = q) = False ∧ (kT = q) = True) :
    dget [(kK, x), (kV, y), (kT, z)] q = some z := by
  simp only [dget]
  rw [if_neg (by simp [hT.1]), if_neg (by simp [hT.2.1]), if_pos (of_eq_true hT.2.2)]

theorem dget_three_mid (x y z kT kV kK q : List Nat)
    (hT : (kK = q) = False ∧ (kV = q) = True) :
    dget [(kK, x), (kV, y), (kT, z)] q = some y := by
  simp only [dget]
  rw [if_neg (by simp [hT.1]), if_pos (of_eq_true hT.2)]

theorem dget_three_top (x y z kT kV kK q : List Nat) (hT : (kK = q) = True) :
    dget [(kK, x), (kV, y), (kT, z)] q = some x := by
  simp only [dget]
  rw [if_pos (of_eq_true hT)]

/-- The brique-105 round trip: a header produced by generate_signature
verifies, provided the payload is valid UTF-8, the secret is non-empty, the
kid survives the header round trip, the resolver returns that secret for
that kid, and the timestamp is inside the tolerance window. -/
theorem roundtrip105 (mac : List Nat → List Nat → List Nat) (now_ms : Int)
    (payload ps secret kid : List Nat) (ts tol : Int)
    (resolver : List Nat → Option (List Nat)) (hdr : List Nat)
    (hdec : utf8Decode payload = some ps) (hsec : secret ≠ [])
    (hkid : kidOK kid = true) (hres : resolver kid = some secret)
    (htol : |now_ms - ts| ≤ tol)
    (hgen : generate_signature mac payload secret ts kid = some hdr) :
    verify_signature mac now_ms hdr payload resolver tol = .ok true := by
  have hg : generate_signature mac payload secret ts kid =
      some (S "t=" ++ intToChars ts ++ 44 :: (S "v1=" ++ hexOfBytes (mac (strBytes secret)
        (strBytes (intToChars ts ++ 46 :: ps)))) ++ 44 :: (S "kid=" ++ kid)) := by
    unfold generate_signature
    rw [hdec]
  rw [hg] at hgen
  have hhdr := Option.some.inj hgen
  subst hhdr
  set sg := hexOfBytes (mac (strBytes secret) (strBytes (intToChars ts ++ 46 :: ps))) with hsg
  set I := intToChars ts with hI
  have hIc : (44 : Nat) ∉ S "t=" ++ I := by
    intro hm
    rcases List.mem_append.mp hm with h | h
    · revert h; decide
    · exact intToChars_no_comma ts (hI ▸ h)
  have hVc : (44 : Nat) ∉ S "v1=" ++ sg := by
    intro hm
    rcases List.mem_append.mp hm with h | h
    · revert h; decide
    · exact hexOfBytes_no_comma _ (hsg ▸ h)
  have hKc : (44 : Nat) ∉ S "kid=" ++ kid := by
    intro hm
    rcases List.mem_append.mp hm with h | h
    · revert h; decide
    · exact kidOK_no_comma hkid h
  have hshape : S "t=" ++ I ++ 44 :: (S "v1=" ++ sg) ++ 44 :: (S "kid=" ++ kid)
      = (S "t=" ++ I) ++ 44 :: ((S "v1=" ++ sg) ++ 44 :: (S "kid=" ++ kid)) := by
    simp [List.append_assoc]
  have hne : S "t=" ++ I ++ 44 :: (S "v1=" ++ sg) ++ 44 :: (S "kid=" ++ kid) ≠ [] := by
    simp [S]
  have hsplit : splitChar 44 (S "t=" ++ I ++ 44 :: (S "v1=" ++ sg) ++ 44 :: (S "kid=" ++ kid))
      = [S "t=" ++ I, S "v1=" ++ sg, S "kid=" ++ kid] := by
    rw [hshape]
    exact splitChar_gen3 hIc hVc hKc
  have e1 : S "t=" ++ I = [116] ++ 61 :: I := rfl
  have e2 : S "v1=" ++ sg = [118, 49] ++ 61 :: sg := rfl
  have e3 : S "kid=" ++ kid = [107, 105, 100] ++ 61 :: kid := rfl
  have hstripI : pyStrip I = I := hI ▸ pyStrip_intToChars ts
  have hstripS : pyStrip sg = sg := hsg ▸ pyStrip_hexOfBytes _
  have hparse : parse_signature_header
      (S "t=" ++ I ++ 44 :: (S "v1=" ++ sg) ++ 44 :: (S "kid=" ++ kid)) =
      .ok [([107, 105, 100], kid), ([118, 49], sg), ([116], I)] := by
    unfold parse_signature_header
    rw [if_neg hne, hsplit, e1, e2, e3,
      parsePairs_three true [116] I [118, 49] sg [107, 105, 100] kid
        (by decide) (by decide) (by decide)]
    simp only [stripK, if_true, hstripI, hstripS, kidOK_strip hkid]
    norm_num
    exact ⟨by decide, by decide, by decide⟩
  unfold verify_signature
  rw [if_neg hne, hparse]
  dsimp only
  rw [dget_three kid sg I [116] [118, 49] [107, 105, 100] keyT (by refine ⟨?_, ?_, ?_⟩ <;> decide),
    dget_three_mid kid sg I [116] [118, 49] [107, 105, 100] keyV1 (by refine ⟨?_, ?_⟩ <;> decide),
    dget_three_top kid sg I [116] [118, 49] [107, 105, 100] keyKid (by decide)]
  dsimp only
  rw [hI, pyToInt_intToChars]
  dsimp only
  rw [if_neg (not_lt.mpr htol), hres]
  dsimp only
  rw [if_neg (fun he => hsec he)]
  unfold signed_payload_105
  rw [hdec]
  dsimp only
  rw [if_pos (by rw [hsg, hI])]

theorem dget_two_bot (y z kT kV q : List Nat)
    (h : (kV = q) = False ∧ (kT = q) = True) :
    dget [(kV, y), (kT, z)] q = some z := by
  simp only [dget]
  rw [if_neg (by simp [h.1]), if_pos (of_eq_true h.2)]

theorem dget_two_top (y z kT kV q : List Nat) (h : (kV = q) = True) :
    dget [(kV, y), (kT, z)] q = some y := by
  simp only [dget]
  rw [if_pos (of_eq_true h)]

theorem dget_two_none (y z kT kV q : List Nat)
    (h : (kV = q) = False ∧ (kT = q) = False) :
    dget [(kV, y), (kT, z)] q = none := by
  simp only [dget]
  rw [if_neg (by simp [h.1]), if_neg (by simp [h.2])]

/-- Dissection of brique-102 verification of a header carrying t and v1 but
no kid: the header parses, kid silently defaults to "v1", and the secret is
resolved for "v1"; the outcome is entirely determined by what the resolver
returns for "v1". -/
theorem verify102_no_kid (mac : List Nat → List Nat → List Nat) (now_ms : Int)
    (payload tStr sig : List Nat) (ts tol : Int)
    (resolver : List Nat → Option (List Nat))
    (hc1 : (44 : Nat) ∉ tStr) (hc2 : (44 : Nat) ∉ sig)
    (hts : tStr ≠ []) (hsig : sig ≠ [])
    (hint : pyToInt tStr = some ts) (htol : |now_ms - ts| ≤ tol * 1000) :
    verify_molam_signature mac now_ms (S "t=" ++ tStr ++ 44 :: (S "v1=" ++ sig))
      payload resolver tol =
      (match resolver (S "v1") with
       | none => .error .secretNotFound
       | some secret =>
         if secret = [] then .error .secretNotFound
         else if hexOfBytes (mac (strBytes secret) (signed_payload_102 tStr payload)) = sig
         then .ok true else .error .signatureMismatch) := by
  have hIc : (44 : Nat) ∉ S "t=" ++ tStr := by
    intro hm
    rcases List.mem_append.mp hm with h | h
    · revert h; decide
    · exact hc1 h
  have hVc : (44 : Nat) ∉ S "v1=" ++ sig := by
    intro hm
    rcases List.mem_append.mp hm with h | h
    · revert h; decide
    · exact hc2 h
  have hshape : S "t=" ++ tStr ++ 44 :: (S "v1=" ++ sig)
      = (S "t=" ++ tStr) ++ 44 :: (S "v1=" ++ sig) := by
    simp [List.append_assoc]
  have hne : S "t=" ++ tStr ++ 44 :: (S "v1=" ++ sig) ≠ [] := by
    simp [S]
  have hsplit : splitChar 44 (S "t=" ++ tStr ++ 44 :: (S "v1=" ++ sig))
      = [S "t=" ++ tStr, S "v1=" ++ sig] := by
    rw [hshape, splitChar_append _ hIc, splitChar_nosep hVc]
  have e1 : S "t=" ++ tStr = [116] ++ 61 :: tStr := rfl
  have e2 : S "v1=" ++ sig = [118, 49] ++ 61 :: sig := rfl
  have hparse : parse102 (S "t=" ++ tStr ++ 44 :: (S "v1=" ++ sig)) =
      .ok [([118, 49], sig), ([116], tStr)] := by
    unfold parse102
    rw [hsplit, e1, e2,
      parsePairs_two false [116] tStr [118, 49] sig (by decide) (by decide)]
    rfl
  unfold verify_molam_signature
  rw [if_neg hne, hparse]
  dsimp only
  rw [dget_two_bot sig tStr [116] [118, 49] keyT (by exact ⟨by decide, by decide⟩),
    dget_two_top sig tStr [116] [118, 49] keyV1 (by decide),
    dget_two_none sig tStr [116] [118, 49] keyKid (by exact ⟨by decide, by decide⟩)]
  dsimp only [Option.getD]
  rw [if_neg (not_or.mpr ⟨hts, hsig⟩), hint]
  dsimp only
  rw [if_neg (not_lt.mpr htol)]

/-- In brique-105 verification of a well-formed header, the
timestampOutOfTolerance failure occurs exactly when the absolute age
exceeds tolerance_ms; no later step can produce that error. -/
theorem tolerance_iff_105 (mac : List Nat → List Nat → List Nat) (now_ms : Int)
    (header raw_body : List Nat) (resolver : List Nat → Option (List Nat))
    (tolerance_ms : Int) (parts : List (List Nat × List Nat))
    (tStr sv kid : List Nat) (ts : Int)
    (hne : header ≠ []) (hp : parse_signature_header header = .ok parts)
    (ht : dget parts keyT = some tStr) (hv : dget parts keyV1 = some sv)
    (hk : dget parts keyKid = some kid) (hi : pyToInt tStr = some ts) :
    (verify_signature mac now_ms header raw_body resolver tolerance_ms
        = .error .timestampOutOfTolerance) ↔ tolerance_ms < |now_ms - ts| := by
  unfold verify_signature
  rw [if_neg hne, hp]
  dsimp only
  rw [ht, hv, hk]
  dsimp only
  rw [hi]
  dsimp only
  by_cases hlt : tolerance_ms < |now_ms - ts|
  · simp [hlt]
  · rw [if_neg hlt]
    simp only [hlt, iff_false]
    intro h
    cases hr : resolver kid with
    | none =>
      rw [hr] at h
      exact absurd (Except.error.inj h) (by decide)
    | some secret =>
      rw [hr] at h
      have h1 : (if secret = [] then (Except.error VErr.secretNotFound : Except VErr Bool)
          else match signed_payload_105 tStr raw_body with
          | none => Except.error VErr.unicodeDecodeError
          | some signed =>
            if hexOfBytes (mac (strBytes secret) signed) = sv then Except.ok true
            else Except.error VErr.signatureMismatch)
          = Except.error VErr.timestampOutOfTolerance := h
      by_cases hse : secret = []
      · rw [if_pos hse] at h1
        exact absurd (Except.error.inj h1) (by decide)
      · rw [if_neg hse] at h1
        cases hsp : signed_payload_105 tStr raw_body with
        | none =>
          rw [hsp] at h1
          exact absurd (Except.error.inj h1) (by decide)
        | some signed =>
          rw [hsp] at h1
          have h2 : (if hexOfBytes (mac (strBytes secret) signed) = sv
              then (Except.ok true : Except VErr Bool)
              else Except.error VErr.signatureMismatch)
              = Except.error VErr.timestampOutOfTolerance := h1
          by_cases hcmp : hexOfBytes (mac (strBytes secret) signed) = sv
          · rw [if_pos hcmp] at h2
            cases h2
          · rw [if_neg hcmp] at h2
            exact absurd (Except.error.inj h2) (by decide)

/-- Same dissection for brique-102: the timestampOutOfTolerance failure
occurs exactly when the age exceeds tolerance_seconds * 1000. -/
theorem tolerance_iff_102 (mac : List Nat → List Nat → List Nat) (now_ms : Int)
    (header payload : List Nat) (resolver : List Nat → Option (List Nat))
    (tolerance_seconds : Int) (parts : List (List Nat × List Nat))
    (tStr sv : List Nat) (ts : Int)
    (hne : header ≠ []) (hp : parse102 header = .ok parts)
    (ht : dget parts keyT = some tStr) (hts : tStr ≠ [])
    (hv : dget parts keyV1 = some sv) (hsv : sv ≠ [])
    (hi : pyToInt tStr = some ts) :
    (verify_molam_signature mac now_ms header payload resolver tolerance_seconds
        = .error .timestampOutOfTolerance) ↔ tolerance_seconds * 1000 < |now_ms - ts| := by
  unfold verify_molam_signature
  rw [if_neg hne, hp]
  dsimp only
  rw [ht, hv, Option.getD_some, Option.getD_some]
  rw [if_neg (not_or.mpr ⟨hts, hsv⟩), hi]
  dsimp only
  by_cases hlt : tolerance_seconds * 1000 < |now_ms - ts|
  · simp [hlt]
  · rw [if_neg hlt]
    simp only [hlt, iff_false]
    intro h
    cases hr : resolver ((dget parts keyKid).getD (S "v1")) with
    | none =>
      rw [hr] at h
      exact absurd (Except.error.inj h) (by decide)
    | some secret =>
      rw [hr] at h
      have h1 : (if secret = [] then (Except.error VErr.secretNotFound : Except VErr Bool)
          else if hexOfBytes (mac (strBytes secret) (signed_payload_102 tStr payload)) = sv
          then Except.ok true else Except.error VErr.signatureMismatch)
          = Except.error VErr.timestampOutOfTolerance := h
      by_cases hse : secret = []
      · rw [if_pos hse] at h1
        exact absurd (Except.error.inj h1) (by decide)
      · rw [if_neg hse] at h1
        by_cases hcmp : hexOfBytes (mac (strBytes secret)
            (signed_payload_102 tStr payload)) = sv
        · rw [if_pos hcmp] at h1
          cases h1
        · rw [if_neg hcmp] at h1
          exact absurd (Except.error.inj h1) (by decide)

/-- brique-105: a well-formed, in-tolerance header whose kid resolves to
nothing fails with the unknown-key error, whatever the claimed signature
and whatever the HMAC function computes (the HMAC is never reached). -/
theorem unknown_kid_105 (mac : List Nat → List Nat → List Nat) (now_ms : Int)
    (header raw_body : List Nat) (resolver : List Nat → Option (List Nat))
    (tolerance_ms : Int) (parts : List (List Nat × List Nat))
    (tStr sv kid : List Nat) (ts : Int)
    (hne : header ≠ []) (hp : parse_signature_header header = .ok parts)
    (ht : dget parts keyT = some tStr) (hv : dget parts keyV1 = some sv)
    (hk : dget parts keyKid = some kid) (hi : pyToInt tStr = some ts)
    (htol : |now_ms - ts| ≤ tolerance_ms) (hres : resolver kid = none) :
    verify_signature mac now_ms header raw_body resolver tolerance_ms
      = .error .secretNotFound := by
  unfold verify_signature
  rw [if_neg hne, hp]
  dsimp only
  rw [ht, hv, hk]
  dsimp only
  rw [hi]
  dsimp only
  rw [if_neg (not_lt.mpr htol), hres]

/-- brique-102: the same unknown-key behaviour, for the kid value the header
carries (or the "v1" default when it carries none). -/
theorem unknown_kid_102 (mac : List Nat → List Nat → List Nat) (now_ms : Int)
    (header payload : List Nat) (resolver : List Nat → Option (List Nat))
    (tolerance_seconds : Int) (parts : List (List Nat × List Nat))
    (tStr sv : List Nat) (ts : Int)
    (hne : header ≠ []) (hp : parse102 header = .ok parts)
    (ht : dget parts keyT = some tStr) (hts : tStr ≠ [])
    (hv : dget parts keyV1 = some sv) (hsv : sv ≠ [])
    (hi : pyToInt tStr = some ts)
    (htol : |now_ms - ts| ≤ tolerance_seconds * 1000)
    (hres : resolver ((dget parts keyKid).getD (S "v1")) = none) :
    verify_molam_signature mac now_ms header payload resolver tolerance_seconds
      = .error .secretNotFound := by
  unfold verify_molam_signature
  rw [if_neg hne, hp]
  dsimp only
  rw [ht, hv, Option.getD_some, Option.getD_some]
  rw [if_neg (not_or.mpr ⟨hts, hsv⟩), hi]
  dsimp only
  rw [if_neg (not_lt.mpr htol), hres]

/-- brique-105, by contrast, rejects a header that carries t and v1 but no
kid: the required-fields check fires before anything else is attempted. -/
theorem verify105_no_kid (mac : List Nat → List Nat → List Nat) (now_ms : Int)
    (raw_body tStr sig : List Nat) (resolver : List Nat → Option (List Nat))
    (tolerance_ms : Int)
    (hc1 : (44 : Nat) ∉ tStr) (hc2 : (44 : Nat) ∉ sig) :
    verify_signature mac now_ms (S "t=" ++ tStr ++ 44 :: (S "v1=" ++ sig))
      raw_body resolver tolerance_ms = .error .missingRequiredFields := by
  have hIc : (44 : Nat) ∉ S "t=" ++ tStr := by
    intro hm
    rcases List.mem_append.mp hm with h | h
    · revert h; decide
    · exact hc1 h
  have hVc : (44 : Nat) ∉ S "v1=" ++ sig := by
    intro hm
    rcases List.mem_append.mp hm with h | h
    · revert h; decide
    · exact hc2 h
  have hshape : S "t=" ++ tStr ++ 44 :: (S "v1=" ++ sig)
      = (S "t=" ++ tStr) ++ 44 :: (S "v1=" ++ sig) := by
    simp [List.append_assoc]
  have hne : S "t=" ++ tStr ++ 44 :: (S "v1=" ++ sig) ≠ [] := by
    simp [S]
  have hsplit : splitChar 44 (S "t=" ++ tStr ++ 44 :: (S "v1=" ++ sig))
      = [S "t=" ++ tStr, S "v1=" ++ sig] := by
    rw [hshape, splitChar_append _ hIc, splitChar_nosep hVc]
  have e1 : S "t=" ++ tStr = [116] ++ 61 :: tStr := rfl
  have e2 : S "v1=" ++ sig = [118, 49] ++ 61 :: sig := rfl
  have hparse : parse_signature_header (S "t=" ++ tStr ++ 44 :: (S "v1=" ++ sig)) =
      .ok [([118, 49], pyStrip sig), ([116], pyStrip tStr)] := by
    unfold parse_signature_header
    rw [if_neg hne, hsplit, e1, e2,
      parsePairs_two true [116] tStr [118, 49] sig (by decide) (by decide)]
    rfl
  unfold verify_signature
  rw [if_neg hne, hparse]
  dsimp only
  rw [dget_two_bot (pyStrip sig) (pyStrip tStr) [116] [118, 49] keyT
      (by exact ⟨by decide, by decide⟩),
    dget_two_top (pyStrip sig) (pyStrip tStr) [116] [118, 49] keyV1 (by decide),
    dget_two_none (pyStrip sig) (pyStrip tStr) [116] [118, 49] keyKid
      (by exact ⟨by decide, by decide⟩)]

/-! ## The claims -/

/-- C1 (amended): the byte string that is HMAC-SHA256'ed is the t value as
it appeared in the header, one period, then the body bytes — unconditionally
so in brique-102's verifier, which concatenates raw bytes; in brique-105's
verifier only for bodies that are valid UTF-8 (the strict decode and
re-encode round-trips to the same bytes), a non-UTF-8 body raising an
uncaught UnicodeDecodeError instead; and the brique-102 example handler
re-formats the timestamp through int() rather than using it as received. -/
theorem C1_canonical_signed_payload :
    (∀ (tStr payload : List Nat),
        signed_payload_102 tStr payload = strBytes tStr ++ 46 :: payload) ∧
    (∀ (tStr body ps : List Nat), utf8Decode body = some ps →
        signed_payload_105 tStr body = some (strBytes tStr ++ 46 :: body)) ∧
    (∀ (t : Int) (payload : List Nat),
        signed_payload_ex t payload = strBytes (intToChars t) ++ 46 :: payload) := by
  have hsb : ∀ s : List Nat, strBytes (s ++ [46]) = strBytes s ++ [46] := by
    intro s
    rw [strBytes_append]
    rfl
  refine ⟨?_, ?_, ?_⟩
  · intro tStr payload
    unfold signed_payload_102
    rw [hsb]
    simp
  · intro tStr body ps hdec
    have h1 : strBytes (tStr ++ 46 :: ps) = strBytes tStr ++ 46 :: strBytes ps := by
      rw [strBytes_append, strBytes_cons]
      rfl
    unfold signed_payload_105
    rw [hdec]
    show some (strBytes (tStr ++ 46 :: ps)) = some (strBytes tStr ++ 46 :: body)
    rw [h1, utf8Decode_encode hdec]
  · intro t payload
    unfold signed_payload_ex
    rw [hsb]
    simp

/-- C1 refuted as stated: a non-UTF-8 body ([255]) makes brique-105's
verification raise an uncaught UnicodeDecodeError instead of HMACing the
body bytes, and the example handler accepts a header whose t value "007"
was re-formatted to "7" before signing. -/
theorem C1_counterexample :
    utf8Decode [255] = none ∧
    verify_signature (fun _ _ => []) 0 (S "t=0,v1=aa,kid=1") [255]
      (fun _ => some (S "s")) 300000 = .error .unicodeDecodeError ∧
    verify_webhook_signature (fun _ m => [m.length]) 7 [] (S "t=007,v1=02")
      (S "s") 300 = true ∧
    signed_payload_ex 7 [] ≠ strBytes (S "007") ++ 46 :: [] := by
  exact ⟨by decide, by decide, by decide, by decide⟩

theorem C1_witness :
    utf8Decode [226, 130, 172] = some [8364] ∧
    signed_payload_105 (S "12") [226, 130, 172]
      = some (strBytes (S "12") ++ 46 :: [226, 130, 172]) :=
  ⟨by decide, C1_canonical_signed_payload.2.1 (S "12") [226, 130, 172] [8364] (by decide)⟩

/-- C2: for a well-formed header with integer timestamp ts, verification
fails with timestampOutOfTolerance exactly when |now_ms - ts| is strictly
greater than the tolerance in milliseconds (tolerance_ms in brique-105,
tolerance_seconds * 1000 in brique-102): the window is symmetric in past
and future, and age exactly equal to the tolerance is accepted past the
check. -/
theorem C2_tolerance_boundary :
    (∀ (mac : List Nat → List Nat → List Nat) (now_ms : Int)
        (header raw_body : List Nat) (resolver : List Nat → Option (List Nat))
        (tolerance_ms : Int) (parts : List (List Nat × List Nat))
        (tStr sv kid : List Nat) (ts : Int),
        header ≠ [] → parse_signature_header header = .ok parts →
        dget parts keyT = some tStr → dget parts keyV1 = some sv →
        dget parts keyKid = some kid → pyToInt tStr = some ts →
        ((verify_signature mac now_ms header raw_body resolver tolerance_ms
            = .error .timestampOutOfTolerance) ↔ tolerance_ms < |now_ms - ts|)) ∧
    (∀ (mac : List Nat → List Nat → List Nat) (now_ms : Int)
        (header payload : List Nat) (resolver : List Nat → Option (List Nat))
        (tolerance_seconds : Int) (parts : List (List Nat × List Nat))
        (tStr sv : List Nat) (ts : Int),
        header ≠ [] → parse102 header = .ok parts →
        dget parts keyT = some tStr → tStr ≠ [] →
        dget parts keyV1 = some sv → sv ≠ [] → pyToInt tStr = some ts →
        ((verify_molam_signature mac now_ms header payload resolver tolerance_seconds
            = .error .timestampOutOfTolerance)
          ↔ tolerance_seconds * 1000 < |now_ms - ts|)) := by
  constructor
  · intro mac now_ms header raw_body resolver tolerance_ms parts tStr sv kid ts
      hne hp ht hv hk hi
    exact tolerance_iff_105 mac now_ms header raw_body resolver tolerance_ms parts
      tStr sv kid ts hne hp ht hv hk hi
  · intro mac now_ms header payload resolver tolerance_seconds parts tStr sv ts
      hne hp ht hts hv hsv hi
    exact tolerance_iff_102 mac now_ms header payload resolver tolerance_seconds parts
      tStr sv ts hne hp ht hts hv hsv hi

theorem C2_witness :
    ((verify_signature (fun _ _ => []) 5 (S "t=5,v1=aa,kid=1") []
        (fun _ => some (S "s")) 0 = .error .timestampOutOfTolerance)
      ↔ (0 : Int) < |(5 : Int) - 5|) ∧
    ((verify_molam_signature (fun _ _ => []) 400001 (S "t=0,v1=aa") []
        (fun _ => some (S "s")) 300 = .error .timestampOutOfTolerance)
      ↔ (300 : Int) * 1000 < |(400001 : Int) - 0|) :=
  ⟨C2_tolerance_boundary.1 (fun _ _ => []) 5 (S "t=5,v1=aa,kid=1") []
      (fun _ => some (S "s")) 0
      [([107, 105, 100], [49]), ([118, 49], [97, 97]), ([116], [53])]
      [53] [97, 97] [49] 5
      (by decide) (by decide) (by decide) (by decide) (by decide) (by decide),
    C2_tolerance_boundary.2 (fun _ _ => []) 400001 (S "t=0,v1=aa") []
      (fun _ => some (S "s")) 300
      [([118, 49], [97, 97]), ([116], [48])] [48] [97, 97] 0
      (by decide) (by decide) (by decide) (by decide) (by decide) (by decide) (by decide)⟩

/-- C3 (amended): a header carrying t and v1 but no kid is not rejected as
malformed by brique-102's verifier or the example handler — kid silently
defaults to "v1" and the secret is resolved for "v1", the outcome depending
only on what the resolver returns there; brique-105's verify_signature,
however, lists kid among its required fields and rejects such a header
outright. -/
theorem C3_kid_default :
    (∀ (mac : List Nat → List Nat → List Nat) (now_ms : Int)
        (payload tStr sig : List Nat) (ts tol : Int)
        (resolver : List Nat → Option (List Nat)),
        (44 : Nat) ∉ tStr → (44 : Nat) ∉ sig → tStr ≠ [] → sig ≠ [] →
        pyToInt tStr = some ts → |now_ms - ts| ≤ tol * 1000 →
        verify_molam_signature mac now_ms (S "t=" ++ tStr ++ 44 :: (S "v1=" ++ sig))
          payload resolver tol =
          (match resolver (S "v1") with
           | none => .error .secretNotFound
           | some secret =>
             if secret = [] then .error .secretNotFound
             else if hexOfBytes (mac (strBytes secret)
                 (signed_payload_102 tStr payload)) = sig
             then .ok true else .error .signatureMismatch)) ∧
    (∀ (mac : List Nat → List Nat → List Nat) (now_ms : Int)
        (raw_body tStr sig : List Nat) (tol : Int)
        (resolver : List Nat → Option (List Nat)),
        (44 : Nat) ∉ tStr → (44 : Nat) ∉ sig →
        verify_signature mac now_ms (S "t=" ++ tStr ++ 44 :: (S "v1=" ++ sig))
          raw_body resolver tol = .error .missingRequiredFields) := by
  constructor
  · intro mac now_ms payload tStr sig ts tol resolver hc1 hc2 hts hsig hint htol
    exact verify102_no_kid mac now_ms payload tStr sig ts tol resolver
      hc1 hc2 hts hsig hint htol
  · intro mac now_ms raw_body tStr sig tol resolver hc1 hc2
    exact verify105_no_kid mac now_ms raw_body tStr sig resolver tol hc1 hc2

/-- C3 refuted as stated: brique-105 rejects the kid-less header
"t=1,v1=aa" as missing required fields instead of defaulting kid to "v1",
while brique-102 on the same header does default and proceeds all the way
to the signature comparison. -/
theorem C3_counterexample :
    verify_signature (fun _ _ => []) 1 (S "t=1,v1=aa") []
      (fun _ => some (S "s")) 300000 = .error .missingRequiredFields ∧
    verify_molam_signature (fun _ _ => []) 1 (S "t=1,v1=aa") []
      (fun k => if k = S "v1" then some (S "s") else none) 300
      = .error .signatureMismatch := by
  exact ⟨by decide, by decide⟩

theorem C3_witness :
    verify_molam_signature (fun _ _ => []) 5 (S "t=5,v1=aa") []
      (fun _ => none) 300 = .error .secretNotFound ∧
    verify_signature (fun _ _ => []) 5 (S "t=5,v1=aa") []
      (fun _ => none) 300000 = .error .missingRequiredFields :=
  ⟨C3_kid_default.1 (fun _ _ => []) 5 [] [53] [97, 97] 5 300 (fun _ => none)
      (by decide) (by decide) (by decide) (by decide) (by decide) (by decide),
    C3_kid_default.2 (fun _ _ => []) 5 [] [53] [97, 97] 300000 (fun _ => none)
      (by decide) (by decide)⟩

/-- C4 (amended): key rotation works for non-empty secrets under kids that
survive the header round trip (no comma, no equals sign, strip-invariant):
a signature generated with each secret and its kid verifies against a
resolver mapping each kid to its own secret; and for every well-formed,
in-tolerance header whose kid the resolver maps to nothing, both verifiers
fail with the unknown-key error — never with signatureMismatch — for every
HMAC function alike, since the digest is never computed. -/
theorem C4_key_rotation :
    (∀ (mac : List Nat → List Nat → List Nat) (now_ms : Int)
        (payload ps secret1 secret2 kid1 kid2 : List Nat) (ts tol : Int)
        (hdr1 hdr2 : List Nat),
        utf8Decode payload = some ps → secret1 ≠ [] → secret2 ≠ [] →
        kidOK kid1 = true → kidOK kid2 = true → kid1 ≠ kid2 →
        |now_ms - ts| ≤ tol →
        generate_signature mac payload secret1 ts kid1 = some hdr1 →
        generate_signature mac payload secret2 ts kid2 = some hdr2 →
        verify_signature mac now_ms hdr1 payload
          (fun k => if k = kid1 then some secret1
            else if k = kid2 then some secret2 else none) tol = .ok true ∧
        verify_signature mac now_ms hdr2 payload
          (fun k => if k = kid1 then some secret1
            else if k = kid2 then some secret2 else none) tol = .ok true) ∧
    (∀ (mac : List Nat → List Nat → List Nat) (now_ms : Int)
        (header raw_body : List Nat) (resolver : List Nat → Option (List Nat))
        (tolerance_ms : Int) (parts : List (List Nat × List Nat))
        (tStr sv kid : List Nat) (ts : Int),
        header ≠ [] → parse_signature_header header = .ok parts →
        dget parts keyT = some tStr → dget parts keyV1 = some sv →
        dget parts keyKid = some kid → pyToInt tStr = some ts →
        |now_ms - ts| ≤ tolerance_ms → resolver kid = none →
        verify_signature mac now_ms header raw_body resolver tolerance_ms
          = .error .secretNotFound) ∧
    (∀ (mac : List Nat → List Nat → List Nat) (now_ms : Int)
        (header payload : List Nat) (resolver : List Nat → Option (List Nat))
        (tolerance_seconds : Int) (parts : List (List Nat × List Nat))
        (tStr sv : List Nat) (ts : Int),
        header ≠ [] → parse102 header = .ok parts →
        dget parts keyT = some tStr → tStr ≠ [] →
        dget parts keyV1 = some sv → sv ≠ [] → pyToInt tStr = some ts →
        |now_ms - ts| ≤ tolerance_seconds * 1000 →
        resolver ((dget parts keyKid).getD (S "v1")) = none →
        verify_molam_signature mac now_ms header payload resolver tolerance_seconds
          = .error .secretNotFound) := by
  refine ⟨?_, ?_, ?_⟩
  · intro mac now_ms payload ps secret1 secret2 kid1 kid2 ts tol hdr1 hdr2
      hdec hs1 hs2 hk1 hk2 hne hto hg1 hg2
    constructor
    · refine roundtrip105 mac now_ms payload ps secret1 kid1 ts tol _ hdr1
        hdec hs1 hk1 ?_ hto hg1
      show (if kid1 = kid1 then some secret1
        else if kid1 = kid2 then some secret2 else none) = some secret1
      rw [if_pos rfl]
    · refine roundtrip105 mac now_ms payload ps secret2 kid2 ts tol _ hdr2
        hdec hs2 hk2 ?_ hto hg2
      show (if kid2 = kid1 then some secret1
        else if kid2 = kid2 then some secret2 else none) = some secret2
      rw [if_neg (fun e => hne e.symm), if_pos rfl]
  · intro mac now_ms header raw_body resolver tolerance_ms parts tStr sv kid ts
      h1 h2 h3 h4 h5 h6 h7 h8
    exact unknown_kid_105 mac now_ms header raw_body resolver tolerance_ms parts
      tStr sv kid ts h1 h2 h3 h4 h5 h6 h7 h8
  · intro mac now_ms header payload resolver tolerance_seconds parts tStr sv ts
      h1 h2 h3 h4 h5 h6 h7 h8 h9
    exact unknown_kid_102 mac now_ms header payload resolver tolerance_seconds parts
      tStr sv ts h1 h2 h3 h4 h5 h6 h7 h8 h9

/-- C4 refuted as stated: a signature generated with the empty secret under
kid "1" does not verify (the resolver's empty string fails the truthiness
test and is treated as an unknown key); a kid containing a comma breaks the
header apart so verification fails as malformed; and a kid with leading
whitespace is stripped by the parser and no longer matches the resolver. -/
theorem C4_counterexample :
    (generate_signature (fun _ _ => []) [] (S "") 0 (S "1")
        = some (S "t=0,v1=,kid=1") ∧
      verify_signature (fun _ _ => []) 0 (S "t=0,v1=,kid=1") []
        (fun k => if k = S "1" then some (S "")
          else if k = S "2" then some (S "x") else none) 300000
        = .error .secretNotFound) ∧
    (generate_signature (fun _ _ => []) [] (S "x") 0 (S "a,b")
        = some (S "t=0,v1=,kid=a,b") ∧
      verify_signature (fun _ _ => []) 0 (S "t=0,v1=,kid=a,b") []
        (fun k => if k = S "a,b" then some (S "x") else none) 300000
        = .error .invalidHeaderFormat) ∧
    (generate_signature (fun _ _ => []) [] (S "s") 0 (S " x")
        = some (S "t=0,v1=,kid= x") ∧
      verify_signature (fun _ _ => []) 0 (S "t=0,v1=,kid= x") []
        (fun k => if k = S " x" then some (S "s") else none) 300000
        = .error .secretNotFound) := by
  exact ⟨⟨by decide, by decide⟩, ⟨by decide, by decide⟩, ⟨by decide, by decide⟩⟩

theorem C4_witness :
    verify_signature (fun _ _ => []) 0 (S "t=0,v1=,kid=1") []
      (fun k => if k = S "1" then some (S "a")
        else if k = S "2" then some (S "b") else none) 0 = .ok true ∧
    verify_signature (fun _ _ => []) 0 (S "t=0,v1=,kid=2") []
      (fun k => if k = S "1" then some (S "a")
        else if k = S "2" then some (S "b") else none) 0 = .ok true :=
  C4_key_rotation.1 (fun _ _ => []) 0 [] [] (S "a") (S "b") (S "1") (S "2") 0 0
    (S "t=0,v1=,kid=1") (S "t=0,v1=,kid=2")
    (by decide) (by decide) (by decide) (by decide) (by decide) (by decide)
    (by decide) (by decide) (by decide)

/-- C5 (amended): the round trip holds for every non-empty secret, every
timestamp inside the tolerance window, every valid-UTF-8 body, and every
kid that survives the header round trip: verifying the header built by
generate_signature, against the same body and a resolver returning that
secret for that kid, returns True. -/
theorem C5_roundtrip :
    ∀ (mac : List Nat → List Nat → List Nat) (now_ms : Int)
      (payload ps secret kid : List Nat) (ts tol : Int)
      (resolver : List Nat → Option (List Nat)) (hdr : List Nat),
      utf8Decode payload = some ps → secret ≠ [] → kidOK kid = true →
      resolver kid = some secret → |now_ms - ts| ≤ tol →
      generate_signature mac payload secret ts kid = some hdr →
      verify_signature mac now_ms hdr payload resolver tol = .ok true := by
  intro mac now_ms payload ps secret kid ts tol resolver hdr hdec hsec hkid hres
    htol hgen
  exact roundtrip105 mac now_ms payload ps secret kid ts tol resolver hdr
    hdec hsec hkid hres htol hgen

/-- C5 refuted as stated: with the empty secret the generated header fails
verification (the secret is falsy, so the key id counts as unknown), and
with a non-UTF-8 body generate_signature itself raises UnicodeDecodeError,
so no header to verify exists at all. -/
theorem C5_counterexample :
    (generate_signature (fun _ _ => [0]) [] (S "") 5 (S "1")
        = some (S "t=5,v1=00,kid=1") ∧
      verify_signature (fun _ _ => [0]) 5 (S "t=5,v1=00,kid=1") []
        (fun k => if k = S "1" then some (S "") else none) 300000
        = .error .secretNotFound) ∧
    generate_signature (fun _ _ => [0]) [255] (S "s") 0 (S "1") = none := by
  exact ⟨⟨by decide, by decide⟩, by decide⟩

theorem C5_witness :
    verify_signature (fun _ _ => [0]) 5 (S "t=5,v1=00,kid=1") []
      (fun k => if k = S "1" then some (S "sec") else none) 300000 = .ok true :=
  C5_roundtrip (fun _ _ => [0]) 5 [] [] (S "sec") (S "1") 5 300000
    (fun k => if k = S "1" then some (S "sec") else none) (S "t=5,v1=00,kid=1")
    (by decide) (by decide) (by decide) (by decide) (by decide) (by decide)

/-- The generated idempotency key always starts with the "molam-" prefix,
so it is never empty. -/
theorem genKey_ne_nil (ts : Nat) (r : List Nat) : genKey ts r ≠ [] := by
  show 109 :: (S "olam-" ++ (natToChars ts ++ 45 :: hexOfBytes r)) ≠ []
  simp

/-- C6 (amended): a provided non-empty key of at most 128 characters is
returned unchanged; a provided key longer than 128 characters fails with
KeyTooLong and is never truncated; with no key provided, the result is
"molam-", the epoch-millisecond timestamp in decimal, "-", and the
lowercase hex of the 12 random bytes (24 hex characters, 96 bits of
entropy). A provided empty string is not returned unchanged: it falls
through to generation (see C9). -/
theorem C6_make_key :
    (∀ (s : List Nat) (ts : Nat) (r : List Nat), s ≠ [] → s.length ≤ 128 →
        make_idempotency_key (some s) ts r = .ok s) ∧
    (∀ (s : List Nat) (ts : Nat) (r : List Nat), 128 < s.length →
        make_idempotency_key (some s) ts r = .error .keyTooLong) ∧
    (∀ (ts : Nat) (r : List Nat), r.length = 12 →
        make_idempotency_key none ts r
          = .ok (S "molam-" ++ natToChars ts ++ 45 :: hexOfBytes r) ∧
        (hexOfBytes r).length = 24) := by
  refine ⟨?_, ?_, ?_⟩
  · intro s ts r hs hle
    show (if s ≠ [] then
        if 128 < s.length then (Except.error IdemErr.keyTooLong : Except IdemErr (List Nat))
        else Except.ok s
      else Except.ok (genKey ts r)) = Except.ok s
    rw [if_pos hs, if_neg (not_lt.mpr hle)]
  · intro s ts r hlen
    have hs : s ≠ [] := by
      intro e
      rw [e] at hlen
      simp at hlen
    show (if s ≠ [] then
        if 128 < s.length then (Except.error IdemErr.keyTooLong : Except IdemErr (List Nat))
        else Except.ok s
      else Except.ok (genKey ts r)) = Except.error IdemErr.keyTooLong
    rw [if_pos hs, if_pos hlen]
  · intro ts r hr
    constructor
    · rfl
    · rw [hexOfBytes_length, hr]

/-- C6 refuted as stated: the empty string has length at most 128 yet is
not returned unchanged — a fresh key is generated instead. -/
theorem C6_counterexample :
    make_idempotency_key (some []) 0 [0, 0, 0, 0, 0, 0, 0, 0, 0, 0, 0, 0]
      = .ok (S "molam-0-000000000000000000000000") ∧
    make_idempotency_key (some []) 0 [0, 0, 0, 0, 0, 0, 0, 0, 0, 0, 0, 0]
      ≠ .ok [] := by
  exact ⟨by decide, by decide⟩

theorem C6_witness :
    make_idempotency_key (some (S "order-12345")) 7 [] = .ok (S "order-12345") ∧
    make_idempotency_key (some (List.replicate 129 120)) 7 [] = .error .keyTooLong ∧
    make_idempotency_key none 1700 [1, 2, 3, 4, 5, 6, 7, 8, 9, 10, 11, 12]
      = .ok (S "molam-" ++ natToChars 1700
          ++ 45 :: hexOfBytes [1, 2, 3, 4, 5, 6, 7, 8, 9, 10, 11, 12]) :=
  ⟨C6_make_key.1 (S "order-12345") 7 [] (by decide) (by decide),
    C6_make_key.2.1 (List.replicate 129 120) 7 [] (by decide),
    (C6_make_key.2.2 1700 [1, 2, 3, 4, 5, 6, 7, 8, 9, 10, 11, 12] (by decide)).1⟩

/-- C9: make_idempotency_key treats a provided empty string like an absent
key — Python's `if provided:` is false for "" — so a fresh key is generated
and the function never returns an empty key for any input. -/
theorem C9_empty_key_treated_absent :
    (∀ (ts : Nat) (r : List Nat),
        make_idempotency_key (some []) ts r = make_idempotency_key none ts r) ∧
    (∀ (provided : Option (List Nat)) (ts : Nat) (r s : List Nat),
        make_idempotency_key provided ts r = .ok s → s ≠ []) := by
  constructor
  · intro ts r
    rfl
  · intro provided ts r s h hs
    subst hs
    cases provided with
    | none => exact genKey_ne_nil ts r (Except.ok.inj h)
    | some s' =>
      have h' : (if s' ≠ [] then
          if 128 < s'.length then (Except.error IdemErr.keyTooLong : Except IdemErr (List Nat))
          else Except.ok s'
        else Except.ok (genKey ts r)) = Except.ok [] := h
      by_cases hne : s' ≠ []
      · rw [if_pos hne] at h'
        by_cases hl : 128 < s'.length
        · rw [if_pos hl] at h'
          cases h'
        · rw [if_neg hl] at h'
          exact hne (Except.ok.inj h')
      · rw [if_neg hne] at h'
        exact genKey_ne_nil ts r (Except.ok.inj h')

theorem C9_witness :
    make_idempotency_key (some []) 3 [7] = make_idempotency_key none 3 [7] ∧
    S "k" ≠ [] :=
  ⟨C9_empty_key_treated_absent.1 3 [7],
    C9_empty_key_treated_absent.2 (some (S "k")) 0 [] (S "k") (by decide)⟩

/-- C10: when the same key occurs in several header segments, parsing does
not fail (each segment still has an equals sign) and the value of the last
occurrence in left-to-right order is the one stored — the dict assignment
overwrites earlier occurrences — in both the brique-105 parser (which
strips) and the brique-102 inline loop (which does not). -/
theorem C10_duplicate_keys_last_wins :
    ∀ (header : List Nat), header ≠ [] →
      (∀ seg ∈ splitChar 44 header, (61 : Nat) ∈ seg) →
      (∃ d, parse_signature_header header = .ok d ∧
        ∀ (xs : List (List Nat)) (seg : List Nat) (ys : List (List Nat))
          (kv : List Nat × List Nat) (key : List Nat),
          splitChar 44 header = xs ++ seg :: ys →
          splitEq1 seg = some kv → pyStrip kv.1 = key →
          (∀ s ∈ ys, ∀ kv', splitEq1 s = some kv' → pyStrip kv'.1 ≠ key) →
          dget d key = some (pyStrip kv.2)) ∧
      (∃ d, parse102 header = .ok d ∧
        ∀ (xs : List (List Nat)) (seg : List Nat) (ys : List (List Nat))
          (kv : List Nat × List Nat) (key : List Nat),
          splitChar 44 header = xs ++ seg :: ys →
          splitEq1 seg = some kv → kv.1 = key →
          (∀ s ∈ ys, ∀ kv', splitEq1 s = some kv' → kv'.1 ≠ key) →
          dget d key = some kv.2) := by
  intro header hne hall
  constructor
  · obtain ⟨d, hd⟩ := parsePairs_ok true (splitChar 44 header) [] hall
    refine ⟨d, ?_, ?_⟩
    · unfold parse_signature_header
      rw [if_neg hne]
      exact hd
    · intro xs seg ys kv key hsplit hseg hkey hys
      refine parsePairs_dget_last true xs seg ys [] d key kv ?_ hseg hkey hys
      rw [← hsplit]
      exact hd
  · obtain ⟨d, hd⟩ := parsePairs_ok false (splitChar 44 header) [] hall
    refine ⟨d, ?_, ?_⟩
    · unfold parse102
      exact hd
    · intro xs seg ys kv key hsplit hseg hkey hys
      refine parsePairs_dget_last false xs seg ys [] d key kv ?_ hseg hkey hys
      rw [← hsplit]
      exact hd

theorem C10_witness :
    ∃ d, parse_signature_header (S "t=1,t=2,v1=x,kid=k") = .ok d ∧
      dget d (S "t") = some (S "2") := by
  obtain ⟨⟨d, hparse, hlast⟩, _⟩ :=
    C10_duplicate_keys_last_wins (S "t=1,t=2,v1=x,kid=k") (by decide) (by decide)
  exact ⟨d, hparse, hlast [S "t=1"] (S "t=2") [S "v1=x", S "kid=k"]
    ([116], [50]) (S "t") (by decide) (by decide) (by decide) (by decide)⟩
